import Mathlib

/-!
Verification development for the AnyFile Excel handler
(`src/excel/src/handler.ts`): a shallow embedding of the workbook
analysis engine (cell reference resolution, dependency-graph building,
cycle detection, evaluation orchestration, custom formula registration,
zip-archive asset discovery) together with theorems about its behaviour.

JavaScript strings are modelled as `String`/`List Char`; JS `Map`/`Set`
are modelled as insertion-ordered association lists / duplicate-free
lists; thrown exceptions are modelled with `Except`; `null`/`undefined`
are both modelled as `Option.none` where the distinction is irrelevant
to the modelled behaviour.
-/

namespace Anyfile

/-! ## Generic string and list helpers (JS string primitives) -/

/-- `leadsWith pre cs` is `true` iff `pre` is a prefix of `cs`
(JS `String.prototype.startsWith`). -/
def leadsWith : List Char → List Char → Bool
  | [], _ => true
  | _ :: _, [] => false
  | a :: as, b :: bs => a = b && leadsWith as bs

/-- JS `String.prototype.includes`. -/
def containsSubCh (pat : List Char) : List Char → Bool
  | [] => pat.isEmpty
  | c :: cs => leadsWith pat (c :: cs) || containsSubCh pat cs

def strContainsSub (s pat : String) : Bool :=
  containsSubCh pat.toList s.toList

/-- JS `String.prototype.toLowerCase` (ASCII range, as used here). -/
def lowerStr (s : String) : String :=
  String.mk (s.toList.map Char.toLower)

/-- JS `String.prototype.toUpperCase` (ASCII range, as used here). -/
def upperStr (s : String) : String :=
  String.mk (s.toList.map Char.toUpper)

/-- JS `String.prototype.split` with a one-character separator. -/
def splitCh (sep : Char) : List Char → List (List Char)
  | [] => [[]]
  | c :: cs =>
    match splitCh sep cs with
    | [] => [[]]
    | h :: t => if c = sep then [] :: h :: t else (c :: h) :: t

/-- JS `Array.prototype.join` with a one-character separator. -/
def joinCh (sep : Char) : List (List Char) → List Char
  | [] => []
  | [x] => x
  | x :: xs => x ++ sep :: joinCh sep xs

/-- `none` ?? fallback (JS nullish coalescing). -/
def optOr {α : Type} (a b : Option α) : Option α :=
  match a with
  | some x => some x
  | none => b

/-- JS `Set.prototype.add`: insertion-ordered, duplicate-free. -/
def setAdd (l : List String) (x : String) : List String :=
  if l.contains x then l else l ++ [x]

/-- First index of an element in a list (JS `Array.prototype.indexOf`). -/
def listIndexOf (l : List String) (x : String) : Option Nat :=
  match l with
  | [] => none
  | a :: as =>
    if a = x then some 0
    else match listIndexOf as x with
      | none => none
      | some i => some (i + 1)

/-- Parse a run of decimal digits as a natural number (JS `Number` on a
digits-only string). -/
def digitsToNat (cs : List Char) : Nat :=
  cs.foldl (fun acc c => acc * 10 + (c.toNat - 48)) 0

/-! ## A small JS-style regular expression engine

The handler extracts all structure from strings with JS regular
expressions.  The engine below implements the exact leftmost-match,
greedy/lazy backtracking semantics of the JS patterns that occur in the
source, with numbered capture groups and an optional case-insensitive
flag.  Each source regex literal is transcribed into an `Rx` value next
to the function that uses it. -/

inductive Rx where
  | eps : Rx
  | ch (c : Char) : Rx
  | str (s : String) : Rx
  | cls (neg : Bool) (singles : List Char) (ranges : List (Char × Char)) : Rx
  | seq (a b : Rx) : Rx
  | alt (a b : Rx) : Rx
  | opt (a : Rx) : Rx
  | star (a : Rx) : Rx
  | lazyStar (a : Rx) : Rx
  | plus (a : Rx) : Rx
  | repRange (a : Rx) (lo hi : Nat) : Rx
  | grp (i : Nat) (a : Rx) : Rx
  | wordB : Rx

def seqAll (rs : List Rx) : Rx := rs.foldr Rx.seq Rx.eps

/-- Captures: group index to captured characters; the most recent
assignment of a group wins. -/
abbrev Caps := List (Nat × List Char)

def capSet (caps : Caps) (i : Nat) (v : List Char) : Caps := (i, v) :: caps

def capGet (caps : Caps) (i : Nat) : Option (List Char) :=
  (caps.find? (fun e => e.1 = i)).map (fun e => e.2)

def charEqCI (ci : Bool) (a b : Char) : Bool :=
  if ci then a.toLower = b.toLower else a = b

def inClassRaw (c : Char) (singles : List Char) (ranges : List (Char × Char)) : Bool :=
  singles.contains c ||
    ranges.any (fun r => decide (r.1.val ≤ c.val) && decide (c.val ≤ r.2.val))

def inClass (ci : Bool) (c : Char) (neg : Bool) (singles : List Char)
    (ranges : List (Char × Char)) : Bool :=
  let hit := inClassRaw c singles ranges ||
    (ci && (inClassRaw c.toLower singles ranges || inClassRaw c.toUpper singles ranges))
  if neg then !hit else hit

def isWordChar (c : Char) : Bool :=
  (decide (65 ≤ c.val) && decide (c.val ≤ 90)) ||
  (decide (97 ≤ c.val) && decide (c.val ≤ 122)) ||
  (decide (48 ≤ c.val) && decide (c.val ≤ 57)) ||
  c = '_'

/-- Continuation for the backtracking matcher: previous character (for
word boundaries), remaining input, captures so far. -/
abbrev RxK := Option Char → List Char → Caps → Option (Caps × List Char)

/-- Backtracking matcher in continuation-passing style; `fuel` bounds the
number of interpreter steps (the generic theorems below never depend on
the bound, and concrete evaluations are given ample fuel). -/
def rxMatch (ci : Bool) : Nat → Rx → Option Char → List Char → Caps → RxK →
    Option (Caps × List Char)
  | 0, _, _, _, _, _ => none
  | Nat.succ fuel, r, prev, cs, caps, k =>
    match r with
    | .eps => k prev cs caps
    | .ch c =>
      match cs with
      | [] => none
      | x :: xs => if charEqCI ci x c then k (some x) xs caps else none
    | .str s => rxMatch ci fuel (seqAll (s.toList.map Rx.ch)) prev cs caps k
    | .cls neg singles ranges =>
      match cs with
      | [] => none
      | x :: xs => if inClass ci x neg singles ranges then k (some x) xs caps else none
    | .seq a b =>
      rxMatch ci fuel a prev cs caps
        (fun p2 cs2 caps2 => rxMatch ci fuel b p2 cs2 caps2 k)
    | .alt a b =>
      match rxMatch ci fuel a prev cs caps k with
      | some res => some res
      | none => rxMatch ci fuel b prev cs caps k
    | .opt a =>
      match rxMatch ci fuel a prev cs caps k with
      | some res => some res
      | none => k prev cs caps
    | .star a =>
      match rxMatch ci fuel a prev cs caps
          (fun p2 cs2 caps2 => rxMatch ci fuel (.star a) p2 cs2 caps2 k) with
      | some res => some res
      | none => k prev cs caps
    | .lazyStar a =>
      match k prev cs caps with
      | some res => some res
      | none =>
        rxMatch ci fuel a prev cs caps
          (fun p2 cs2 caps2 => rxMatch ci fuel (.lazyStar a) p2 cs2 caps2 k)
    | .plus a =>
      rxMatch ci fuel a prev cs caps
        (fun p2 cs2 caps2 => rxMatch ci fuel (.star a) p2 cs2 caps2 k)
    | .repRange a lo hi =>
      if lo > 0 then
        rxMatch ci fuel a prev cs caps
          (fun p2 cs2 caps2 => rxMatch ci fuel (.repRange a (lo - 1) (hi - 1)) p2 cs2 caps2 k)
      else if hi = 0 then k prev cs caps
      else
        match rxMatch ci fuel a prev cs caps
            (fun p2 cs2 caps2 => rxMatch ci fuel (.repRange a 0 (hi - 1)) p2 cs2 caps2 k) with
        | some res => some res
        | none => k prev cs caps
    | .grp i a =>
      rxMatch ci fuel a prev cs caps
        (fun p2 cs2 caps2 =>
          k p2 cs2 (capSet caps2 i (cs.take (cs.length - cs2.length))))
    | .wordB =>
      let before := match prev with | none => false | some c => isWordChar c
      let after := match cs with | [] => false | x :: _ => isWordChar x
      if before ≠ after then k prev cs caps else none

def rxFuel (cs : List Char) : Nat := (cs.length + 32) * (cs.length + 32) * 16

/-- Attempt a match anchored at the start of `cs`; returns captures and
the number of characters consumed. -/
def runMatchAt (ci : Bool) (r : Rx) (prev : Option Char) (cs : List Char) :
    Option (Caps × Nat) :=
  match rxMatch ci (rxFuel cs) r prev cs [] (fun _ rest caps => some (caps, rest)) with
  | none => none
  | some (caps, rest) => some (caps, cs.length - rest.length)

/-- All matches, scanning left to right and resuming after each match
(JS `String.prototype.matchAll` with the `g` flag; a zero-length match
advances by one character, as a JS engine advances `lastIndex`). -/
def matchAllAux (ci : Bool) (r : Rx) : Nat → Option Char → List Char → List Caps
  | 0, _, _ => []
  | Nat.succ fuel, prev, cs =>
    match runMatchAt ci r prev cs with
    | some (caps, n) =>
      if n = 0 then
        match cs with
        | [] => [caps]
        | x :: xs => caps :: matchAllAux ci r fuel (some x) xs
      else
        let consumed := cs.take n
        let prev2 := match consumed.getLast? with
          | some c => some c
          | none => prev
        caps :: matchAllAux ci r fuel prev2 (cs.drop n)
    | none =>
      match cs with
      | [] => []
      | x :: xs => matchAllAux ci r fuel (some x) xs

def matchAll (ci : Bool) (r : Rx) (cs : List Char) : List Caps :=
  matchAllAux ci r (cs.length + 1) none cs

/-- First match anywhere in the string (JS `String.prototype.match` with
a non-global regex). -/
def firstMatchAux (ci : Bool) (r : Rx) : Nat → Option Char → List Char → Option Caps
  | 0, _, _ => none
  | Nat.succ fuel, prev, cs =>
    match runMatchAt ci r prev cs with
    | some (caps, _) => some caps
    | none =>
      match cs with
      | [] => none
      | x :: xs => firstMatchAux ci r fuel (some x) xs

def firstMatch (ci : Bool) (r : Rx) (cs : List Char) : Option Caps :=
  firstMatchAux ci r (cs.length + 1) none cs

def strOfCaps (caps : Caps) (i : Nat) : String :=
  String.mk ((capGet caps i).getD [])

/-! ## Data model

A workbook is the external sheet library's document object: an ordered
list of sheet names and a map from sheet name to worksheet, where a
worksheet is an insertion-ordered sparse map from A1-style address
strings to cells.  A cell carries a value `v`, a display string `w`, a
type tag `t` and an optional formula string `f` (the `=` is not
stored). -/

inductive CVal where
  | num (i : Int) : CVal
  | str (s : String) : CVal
  | boolean (b : Bool) : CVal
  | date (d : Int) : CVal
deriving DecidableEq, Repr

structure Cell where
  v : Option CVal
  w : Option String
  t : Option String
  f : Option String
deriving DecidableEq, Repr

abbrev Worksheet := List (String × Cell)

structure Workbook where
  sheetNames : List String
  sheets : List (String × Worksheet)
deriving DecidableEq, Repr

def wsLookup (wb : Workbook) (name : String) : Option Worksheet :=
  (wb.sheets.find? (fun e => e.1 = name)).map (fun e => e.2)

def cellLookup (ws : Worksheet) (addr : String) : Option Cell :=
  (ws.find? (fun e => e.1 = addr)).map (fun e => e.2)

def wsSet (ws : Worksheet) (addr : String) (cell : Cell) : Worksheet :=
  if ws.any (fun e => e.1 = addr) then
    ws.map (fun e => if e.1 = addr then (addr, cell) else e)
  else ws ++ [(addr, cell)]

def wbSetSheet (wb : Workbook) (name : String) (ws : Worksheet) : Workbook :=
  { wb with
    sheets :=
      if wb.sheets.any (fun e => e.1 = name) then
        wb.sheets.map (fun e => if e.1 = name then (name, ws) else e)
      else wb.sheets ++ [(name, ws)] }

/-- A sheet argument of the public cell API: a sheet name or an index. -/
inductive SheetRef where
  | name (s : String) : SheetRef
  | idx (i : Nat) : SheetRef
deriving DecidableEq, Repr

/-- `resolveSheetName` from the source: a string is used as is; an index
is looked up in `SheetNames`, falling back to the first sheet.  When the
workbook has no sheets at all, JS string interpolation of the resulting
`undefined` produces the text "undefined". -/
def resolveSheetName (wb : Workbook) (input : SheetRef) : String :=
  match input with
  | .name s => s
  | .idx i =>
    match wb.sheetNames.get? i with
    | some s => s
    | none =>
      match wb.sheetNames.get? 0 with
      | some s => s
      | none => "undefined"

/-- `columnNumberToName` from the source: 0-based column index to
spreadsheet letters (A, B, ..., Z, AA, ...).  The loop variable shrinks
by a factor of 26 per step, so a fuel of `n + 1` always suffices. -/
def colNameGo : Nat → Nat → String
  | 0, _ => ""
  | Nat.succ fuel, n =>
    if n = 0 then ""
    else colNameGo fuel ((n - 1) / 26) ++ String.mk [Char.ofNat (65 + (n - 1) % 26)]

def columnNumberToName (index : Nat) : String := colNameGo (index + 2) (index + 1)

/-- Modelled from the spec: the external sheet library's A1-style address
encoding (spec section 3, `CellAddress` rendered as column letters
followed by the 1-based row number).  The library's own encoder yields
an empty column string at index -1 and the plain stringified number for
the row, which is what a 0-based index of -1 (a 1-based input of 0)
produces. -/
def encode_col (c : Int) : String :=
  if c < 0 then "" else columnNumberToName c.toNat

def encode_row (r : Int) : String := toString (r + 1)

def encode_cell (r c : Int) : String := encode_col c ++ encode_row r

/-! ## Cell Reference Resolver -/

/-- `address.replace(/\$/g, "").toUpperCase()`. -/
def normalizeAddress (address : String) : String :=
  String.mk ((address.toList.filter (fun c => c ≠ '$')).map Char.toUpper)

/-- `const [sheet, address] = reference.split("!")` followed by
re-assembly with the address normalized. -/
def normalizeReference (reference : String) : String :=
  let parts := splitCh '!' reference.toList
  let sheet := parts.headD []
  let address := (parts.get? 1).getD []
  String.mk sheet ++ "!" ++ normalizeAddress (String.mk address)

def wordCls : Rx := .cls false ['_'] [('A', 'Z'), ('a', 'z'), ('0', '9')]

def upperCls : Rx := .cls false [] [('A', 'Z')]

def digitCls : Rx := .cls false [] [('0', '9')]

/-- `[\s\S]` — any character. -/
def anyCls : Rx := .cls true [] []

def notGtCls : Rx := .cls true ['>'] []

def notDqCls : Rx := .cls true ['"'] []

def aposChar : Char := Char.ofNat 39

def notAposCls : Rx := .cls true [aposChar] []

/-- The reference-scanning regex of `extractCellReferences`:
`(?:'([^']+)'|([A-Za-z0-9_]+))?!?\$?([A-Z]{1,3})\$?([0-9]+)` (global). -/
def refRegex : Rx :=
  .grp 0 (seqAll [
    .opt (.alt (seqAll [.ch aposChar, .grp 1 (.plus notAposCls), .ch aposChar])
               (.grp 2 (.plus wordCls))),
    .opt (.ch '!'),
    .opt (.ch '$'),
    .grp 3 (.repRange upperCls 1 3),
    .opt (.ch '$'),
    .grp 4 (.plus digitCls)])

/-- `extractCellReferences(formula, currentSheet)` from the source. -/
def extractCellReferences (formula : String) (currentSheet : String) : List String :=
  let references := (matchAll false refRegex formula.toList).map (fun caps =>
    let sheetRef :=
      match capGet caps 1 with
      | some s => s
      | none =>
        match capGet caps 2 with
        | some s => s
        | none => currentSheet.toList
    let column := (capGet caps 3).getD []
    let row := (capGet caps 4).getD []
    String.mk (sheetRef ++ '!' :: column ++ row))
  references.map normalizeReference

/-! ## Formula Graph Builder -/

/-- The dependency graph: an insertion-ordered map from formula node to
the insertion-ordered set of nodes it references. -/
abbrev Graph := List (String × List String)

def graphHasKey (g : Graph) (k : String) : Bool := g.any (fun e => e.1 = k)

def graphAddKey (g : Graph) (k : String) : Graph :=
  if graphHasKey g k then g else g ++ [(k, [])]

def graphAddDep (g : Graph) (k dep : String) : Graph :=
  g.map (fun e =>
    if e.1 = k then (e.1, if e.2.contains dep then e.2 else e.2 ++ [dep]) else e)

def graphKeys (g : Graph) : List String := g.map (fun e => e.1)

/-- `buildFormulaGraph(workbook)` from the source: every sheet is
scanned in order; every addressed cell bearing a formula becomes a node
`sheet!ADDRESS` whose edges are the resolver's output for its formula;
bookkeeping keys starting with `!` are skipped. -/
def buildFormulaGraph (wb : Workbook) : Graph :=
  wb.sheetNames.foldl (fun g sheetName =>
    match wsLookup wb sheetName with
    | none => g
    | some worksheet =>
      worksheet.foldl (fun g ent =>
        if leadsWith ['!'] ent.1.toList then g
        else
          match ent.2.f with
          | none => g
          | some f =>
            let node := sheetName ++ "!" ++ normalizeAddress ent.1
            let refs := extractCellReferences f sheetName
            let g1 := graphAddKey g node
            refs.foldl (fun g2 r => graphAddDep g2 node r) g1) g) []

/-! ## Cycle Detector -/

structure ExcelCircularReference where
  path : List String
deriving DecidableEq, Repr

structure DfsSt where
  visited : List String
  stack : List String
  path : List String
  cycles : List ExcelCircularReference
deriving DecidableEq, Repr

/-- One depth-first traversal step of `detectCircularReferences`:
re-entry into a node on the current path records the sub-path from its
first occurrence, closed with the node itself; fully explored nodes are
never re-examined. -/
def dfsRun (graph : Graph) : Nat → String → DfsSt → DfsSt
  | 0, _, st => st
  | Nat.succ fuel, node, st =>
    if st.stack.contains node then
      match listIndexOf st.path node with
      | none => st
      | some cycleStart =>
        { st with cycles := st.cycles ++ [⟨st.path.drop cycleStart ++ [node]⟩] }
    else if st.visited.contains node then st
    else
      let st1 := { st with
        visited := st.visited ++ [node],
        stack := st.stack ++ [node],
        path := st.path ++ [node] }
      let deps := ((graph.find? (fun e => e.1 = node)).map (fun e => e.2)).getD []
      let st2 := deps.foldl (fun s next => dfsRun graph fuel next s) st1
      { st2 with path := st2.path.dropLast, stack := st2.stack.erase node }

/-- `detectCircularReferences` over a (pre-built) graph. -/
def detectCircularReferences (graph : Graph) : List ExcelCircularReference :=
  (graph.foldl (fun (st : DfsSt) (e : String × List String) =>
    if st.visited.contains e.1 then st
    else dfsRun graph (graph.length + 1) e.1 st)
    ⟨[], [], [], []⟩).cycles

/-- The public `findCircularReferences` entry point: builds a fresh
graph then runs the detector. -/
def findCircularReferences (wb : Workbook) : List ExcelCircularReference :=
  detectCircularReferences (buildFormulaGraph wb)

/-! ## Cell accessors -/

/-- The record returned by `getCellValue` for an existing cell. -/
structure CellRecord where
  address : String
  value : Option CVal
  raw : Option String
  type : Option String
  formula : Option String
  evaluatedValue : Option CVal
deriving DecidableEq, Repr

/-- `getCellValue(workbook, sheet, row, column)` from the source: throws
when the resolved sheet does not exist, returns `undefined` (here
`none`) when the addressed cell is absent, and otherwise a record built
from the cell. -/
def getCellValue (wb : Workbook) (sheet : SheetRef) (row col : Int) :
    Except String (Option CellRecord) :=
  let sheetName := resolveSheetName wb sheet
  match wsLookup wb sheetName with
  | none => .error ("Sheet \"" ++ sheetName ++ "\" not found.")
  | some worksheet =>
    let cellAddress := encode_cell (row - 1) (col - 1)
    match cellLookup worksheet cellAddress with
    | none => .ok none
    | some cell =>
      .ok (some {
        address := cellAddress,
        value := cell.v,
        raw := cell.w,
        type := cell.t,
        formula := cell.f,
        evaluatedValue := cell.v })

structure ExcelSetCellOptions where
  formula : Option String
deriving DecidableEq, Repr

inductive WriteVal where
  | s (v : String) : WriteVal
  | v (v : Option CVal) : WriteVal
deriving DecidableEq, Repr

def cvTag : CVal → String
  | .num _ => "n"
  | .str _ => "s"
  | .boolean _ => "b"
  | .date _ => "d"

/-- Modelled from the spec: the external sheet library's write-a-grid-of
values-at-an-origin operation (spec section 6), here for the single-cell
grid the handler always passes.  A string beginning with "=" is stored
as a formula cell, a plain value is stored with its inferred type tag,
and a null write leaves the cell untouched. -/
def sheet_add_aoa (ws : Worksheet) (wv : WriteVal) (r c : Int) : Worksheet :=
  let addr := encode_cell r c
  match wv with
  | .s s =>
    if leadsWith ['='] s.toList then
      wsSet ws addr ⟨none, none, some "s", some (String.mk s.toList.tail)⟩
    else wsSet ws addr ⟨some (.str s), none, some "s", none⟩
  | .v (some cv) => wsSet ws addr ⟨some cv, none, some (cvTag cv), none⟩
  | .v none => ws

def formulaTruthy (o : Option String) : Bool :=
  match o with
  | none => false
  | some s => s ≠ ""

/-- `setCellValue(workbook, sheet, row, column, value, options)` from
the source: throws for a missing sheet and for non-positive 1-based
coordinates, writes the formula (as "=...") or the value through the
sheet library, then fixes up the written cell's formula/type fields.
The `value !== undefined` guard is modelled as `value.isSome` (null and
undefined are both `none`); cell styles are not modelled. -/
def setCellValue (wb : Workbook) (sheet : SheetRef) (row col : Int)
    (value : Option CVal) (options : ExcelSetCellOptions) : Except String Workbook :=
  let sheetName := resolveSheetName wb sheet
  match wsLookup wb sheetName with
  | none => .error ("Sheet \"" ++ sheetName ++ "\" not found.")
  | some worksheet =>
    if row < 1 ∨ col < 1 then
      .error "Row and column must be 1-based positive integers."
    else
      let writeFormula :=
        match options.formula with
        | some f => if f ≠ "" then some ("=" ++ f) else none
        | none => none
      let ws1 :=
        match writeFormula with
        | some s => sheet_add_aoa worksheet (.s s) (row - 1) (col - 1)
        | none => sheet_add_aoa worksheet (.v value) (row - 1) (col - 1)
      let cellAddress := encode_cell (row - 1) (col - 1)
      let ws2 :=
        match cellLookup ws1 cellAddress with
        | none => ws1
        | some cell =>
          let cell1 :=
            if formulaTruthy options.formula then { cell with f := options.formula }
            else if cell.f.isSome ∧ value.isSome then { cell with f := none }
            else cell
          let cell2 :=
            match value with
            | some (.date d) => { cell1 with t := some "d", v := some (.date d) }
            | _ => cell1
          wsSet ws1 cellAddress cell2
      .ok (wbSetSheet wb sheetName ws2)

/-! ## Evaluation Orchestrator

The external calculation engine (`XLSX_CALC`) is a collaborator outside
this repository: it evaluates the whole workbook in place and throws on
failure.  It is modelled as a function parameter returning either the
updated workbook or, on failure, the (possibly partially updated)
workbook together with the thrown message. -/

abbrev Engine := Workbook → Except (Workbook × String) Workbook

structure EvalError where
  address : String
  message : String
deriving DecidableEq, Repr

structure ExcelEvaluationReport where
  evaluated : List String
  circular : List ExcelCircularReference
  errors : List EvalError
deriving DecidableEq, Repr

/-- The tail of `evaluateWorkbook` (source lines after the try/catch):
populate `evaluated` from the graph's key set and, when `circular` was
not already filled in, run the detector; then return the report. -/
def finishReport (wb : Workbook) (graph : Graph) (report : ExcelEvaluationReport) :
    Except (String × ExcelEvaluationReport) (Workbook × ExcelEvaluationReport) :=
  let report1 := { report with evaluated := graphKeys graph }
  let report2 :=
    if report1.circular.isEmpty then
      { report1 with circular := detectCircularReferences graph }
    else report1
  .ok (wb, report2)

/-- `evaluateWorkbook(workbook, options)` from the source.  A thrown JS
error is modelled as `.error`, carrying both the thrown message and the
state of the local `report` object at the moment of the throw. -/
def evaluateWorkbook (engine : Engine) (wb : Workbook) (ignoreCircular : Bool) :
    Except (String × ExcelEvaluationReport) (Workbook × ExcelEvaluationReport) :=
  match engine wb with
  | .ok wb2 => finishReport wb2 (buildFormulaGraph wb2) ⟨[], [], []⟩
  | .error (wbE, msg) =>
    if strContainsSub (lowerStr msg) "circular" then
      let graph := buildFormulaGraph wbE
      let circ := detectCircularReferences graph
      if !ignoreCircular then
        .error ("Formula evaluation failed: " ++ msg, ⟨[], circ, []⟩)
      else finishReport wbE graph ⟨[], circ, []⟩
    else
      .error ("Formula evaluation failed: " ++ msg, ⟨[], [], [⟨"", msg⟩]⟩)

/-! ## Per-cell evaluation -/

structure ExcelFormulaResult where
  address : String
  sheet : String
  formula : Option String
  value : Option CVal
  evaluatedValue : Option CVal
  type : Option String
  error : Option String
deriving DecidableEq, Repr

/-- The body of the `try` block of `evaluateCellFormula`: run a full
evaluation with circularity suppression, read the target cell back, and
annotate it when it participates in a reported cycle. -/
def evaluateCellTry (engine : Engine) (wb : Workbook) (sheet : SheetRef)
    (row col : Int) (address sheetName : String) (baseCell : Option CellRecord) :
    Except String ExcelFormulaResult :=
  match evaluateWorkbook engine wb true with
  | .error (m, _) => .error m
  | .ok (wb2, report) =>
    match getCellValue wb2 sheet row col with
    | .error e => .error e
    | .ok none =>
      .ok { address := address, sheet := sheetName,
            formula := baseCell.bind (fun c => c.formula),
            value := none, evaluatedValue := none, type := none,
            error := some "Cell not found." }
    | .ok (some evaluatedCell) =>
      let isCircular := report.circular.any (fun entry => entry.path.contains address)
      .ok { address := address, sheet := sheetName,
            formula := optOr evaluatedCell.formula (baseCell.bind (fun c => c.formula)),
            value := evaluatedCell.value,
            evaluatedValue := optOr evaluatedCell.evaluatedValue evaluatedCell.value,
            type := evaluatedCell.type,
            error := if isCircular then some "Circular reference detected." else none }

/-- `evaluateCellFormula(workbook, sheet, row, column)` from the source.
Note that the pre-evaluation `getCellValue` call sits outside the
try/catch, so its exceptions propagate to the caller. -/
def evaluateCellFormula (engine : Engine) (wb : Workbook) (sheet : SheetRef)
    (row col : Int) : Except String ExcelFormulaResult :=
  let sheetName := resolveSheetName wb sheet
  let address := sheetName ++ "!" ++ encode_cell (row - 1) (col - 1)
  match getCellValue wb sheet row col with
  | .error e => .error e
  | .ok baseCell =>
    match evaluateCellTry engine wb sheet row col address sheetName baseCell with
    | .ok r => .ok r
    | .error m =>
      .ok { address := address, sheet := sheetName,
            formula := baseCell.bind (fun c => c.formula),
            value := baseCell.bind (fun c => c.value),
            evaluatedValue := baseCell.bind (fun c => c.evaluatedValue),
            type := baseCell.bind (fun c => c.type),
            error := some m }

/-! ## Custom Formula Registry

The registry is the module-level `Set` of uppercased registered names;
registration state is passed explicitly.  The pass-through calls into
the external calculation engine (`set_fx`, `import_functions`) do not
affect the registry and are modelled as accepting their input. -/

/-- A JS value as far as the registration guards can observe it:
`typeof x === "function"` and string falsiness. -/
inductive JsValue where
  | func : JsValue
  | str (s : String) : JsValue
  | num (n : Int) : JsValue
  | nul : JsValue
deriving DecidableEq, Repr

def isFunction : JsValue → Bool
  | .func => true
  | _ => false

/-- `registerCustomFormula(name, implementation)` from the source. -/
def registerCustomFormula (registry : List String) (name : String)
    (implementation : JsValue) : Except String (List String) :=
  if name = "" ∨ isFunction implementation = false then
    .error "registerFormula requires a name and function implementation."
  else .ok (setAdd registry (upperStr name))

/-- `registerCustomFormulas(formulas)` from the source: a nullish map is
ignored; otherwise every key is forwarded to the engine and recorded
uppercased, with no per-entry validation. -/
def registerCustomFormulas (registry : List String)
    (formulas : Option (List (String × JsValue))) : Except String (List String) :=
  match formulas with
  | none => .ok registry
  | some fs => .ok (fs.foldl (fun r kv => setAdd r (upperStr kv.1)) registry)

/-! ## Path helpers (node `path.dirname` / `path.extname`, posix) -/

/-- The index node's posix `dirname` cuts at: the largest index `i ≥ 1`
holding a slash that is followed (strictly later in the string) by a
non-slash character. -/
def lastSlashBeforeNonSlash (p : List Char) : Option Nat :=
  ((List.range p.length).filter (fun i =>
    decide (1 ≤ i) && (p.get? i == some '/') &&
      ((List.range p.length).any (fun k =>
        decide (i < k) && !(p.get? k == some '/'))))).getLast?

/-- Node's posix `path.dirname`. -/
def dirnameCh (p : List Char) : List Char :=
  if p = [] then ['.']
  else
    let hasRoot := p.head? = some '/'
    match lastSlashBeforeNonSlash p with
    | none => if hasRoot then ['/'] else ['.']
    | some e => if hasRoot ∧ e = 1 then ['/', '/'] else p.take e

def dirname (p : String) : String := String.mk (dirnameCh p.toList)

/-- Node's posix `path.extname` restricted to its documented behaviour:
the suffix of the basename from its last dot, empty when the basename
has no dot, starts with its only dot, or is "." / "..". -/
def extnameCh (p : List Char) : List Char :=
  let base := (splitCh '/' p).getLastD []
  if base = ['.'] ∨ base = ['.', '.'] then []
  else
    match (((List.range base.length).filter (fun i => base.get? i == some '.')).getLast?) with
    | none => []
    | some 0 => []
    | some i => base.drop i

def extname (p : String) : String := String.mk (extnameCh p.toList)

/-! ## Asset Resolver: relationship-target path resolution -/

/-- The body of the collapsing loop of `resolveTarget`: empty and `.`
segments are skipped, `..` pops the stack (a no-op when empty), and any
other segment is pushed. -/
def collapseStep (st : List (List Char)) (seg : List Char) : List (List Char) :=
  if seg = [] ∨ seg = ['.'] then st
  else if seg = ['.', '.'] then st.dropLast
  else st ++ [seg]

/-- `resolveTarget(basePath, target)` from the source: an empty target
is returned as is; an absolute target merely loses its leading slash; a
relative target is joined to the base path's directory and its `..`/`.`
and empty segments are collapsed with a stack. -/
def resolveTargetCh (basePath target : List Char) : List Char :=
  if target = [] then target
  else if target.head? = some '/' then target.tail
  else
    let baseDir := dirnameCh basePath
    let combined := (if baseDir ≠ [] then baseDir ++ ['/'] else []) ++ target
    let segments := splitCh '/' combined
    let stack := segments.foldl collapseStep []
    joinCh '/' stack

def resolveTarget (basePath target : String) : String :=
  String.mk (resolveTargetCh basePath.toList target.toList)

/-- `normalizeZipPath(pathValue)` from the source: backslashes become
slashes, a leading "./" and a leading "/" are stripped, and an `xl/`
prefix is forced. -/
def normalizeZipPathCh (pathValue : List Char) : List Char :=
  let n1 := pathValue.map (fun c => if c = '\\' then '/' else c)
  let n2 := if leadsWith ['.', '/'] n1 then n1.drop 2 else n1
  let n3 := if n2.head? = some '/' then n2.tail else n2
  if leadsWith ['x', 'l', '/'] n3 then n3 else 'x' :: 'l' :: '/' :: n3

def normalizeZipPath (pathValue : String) : String :=
  String.mk (normalizeZipPathCh pathValue.toList)

/-- `buildSheetRelPath(sheetPath)` from the source. -/
def buildSheetRelPath (sheetPath : String) : String :=
  let dir := dirname sheetPath
  let file := String.mk ((splitCh '/' sheetPath.toList).getLastD [])
  if dir = "" then "_rels/" ++ file ++ ".rels"
  else dir ++ "/_rels/" ++ file ++ ".rels"

/-- `buildDrawingRelPath(drawingPath)` from the source (textually the
same computation as `buildSheetRelPath`). -/
def buildDrawingRelPath (drawingPath : String) : String :=
  let dir := dirname drawingPath
  let file := String.mk ((splitCh '/' drawingPath.toList).getLastD [])
  if dir = "" then "_rels/" ++ file ++ ".rels"
  else dir ++ "/_rels/" ++ file ++ ".rels"

/-! ## Asset Resolver: archive model and relationship parsing

The backing archive is `JSZip.loadAsync(buffer).catch(() => null)`: an
unparseable archive is `none`, otherwise a list of named parts whose
decompression can itself fail (`content = .error`), which models a
rejected `async(...)` read. -/

deriving instance DecidableEq for Except

structure ZipEntry where
  name : String
  content : Except String String
deriving DecidableEq, Repr

abbrev Zip := List ZipEntry

def zipFile (z : Zip) (name : String) : Option ZipEntry :=
  z.find? (fun e => e.name = name)

/-- `await zip.file(name)?.async("string")`: a missing part is `none`,
a failing read rejects. -/
def zipReadOpt (z : Zip) (name : String) : Except String (Option String) :=
  match zipFile z name with
  | none => .ok none
  | some e =>
    match e.content with
    | .ok s => .ok (some s)
    | .error m => .error m

/-- A JS `Map`: insertion-ordered association list where `set` on an
existing key overwrites in place. -/
def mapSet (m : List (String × String)) (k v : String) : List (String × String) :=
  if m.any (fun e => e.1 = k) then m.map (fun e => if e.1 = k then (k, v) else e)
  else m ++ [(k, v)]

def relGet (m : List (String × String)) (k : String) : Option String :=
  (m.find? (fun e => e.1 = k)).map (fun e => e.2)

/-- `/<Relationship[^>]*Id="([^"]+)"[^>]*Target="([^"]+)"/g`. -/
def relRegex : Rx :=
  .grp 0 (seqAll [.str "<Relationship", .star notGtCls, .str "Id=\"",
    .grp 1 (.plus notDqCls), .ch '"', .star notGtCls, .str "Target=\"",
    .grp 2 (.plus notDqCls), .ch '"'])

/-- `parseRelationships(xml)` from the source. -/
def parseRelationships (xml : Option String) : List (String × String) :=
  match xml with
  | none => []
  | some x =>
    (matchAll false relRegex x.toList).foldl (fun m caps =>
      mapSet m (strOfCaps caps 1) (strOfCaps caps 2)) []

/-! ## Asset Resolver: sheet entries -/

structure SheetEntry where
  name : String
  path : String
deriving DecidableEq, Repr

def fallbackSheetEntries (wb : Workbook) : List SheetEntry :=
  wb.sheetNames.enum.map (fun e =>
    { name := e.2, path := "worksheets/sheet" ++ toString (e.1 + 1) ++ ".xml" })

/-- `/<sheet[^>]*name="([^"]+)"[^>]*r:id="([^"]+)"/g`. -/
def sheetRegex : Rx :=
  .grp 0 (seqAll [.str "<sheet", .star notGtCls, .str "name=\"",
    .grp 1 (.plus notDqCls), .ch '"', .star notGtCls, .str "r:id=\"",
    .grp 2 (.plus notDqCls), .ch '"'])

/-- `getSheetEntries()` from the source: resolve `(sheetName, partPath)`
pairs from the workbook manifest and its relationship file, falling back
to positional `sheetN` names when the archive or manifest is missing or
yields nothing. -/
def getSheetEntries (zipOpt : Option Zip) (wb : Workbook) :
    Except String (List SheetEntry) :=
  match zipOpt with
  | none => .ok (fallbackSheetEntries wb)
  | some zip =>
    match zipReadOpt zip "xl/workbook.xml" with
    | .error m => .error m
    | .ok workbookXml =>
      match zipReadOpt zip "xl/_rels/workbook.xml.rels" with
      | .error m => .error m
      | .ok relsXml =>
        let rels := parseRelationships relsXml
        let entries :=
          match workbookXml with
          | none => []
          | some wx =>
            (matchAll false sheetRegex wx.toList).foldl
              (fun (acc : List SheetEntry) caps =>
                let nm := strOfCaps caps 1
                let target0 := (relGet rels (strOfCaps caps 2)).getD ""
                let target1 :=
                  if target0.toList.head? = some '/' then
                    String.mk target0.toList.tail
                  else target0
                let target2 :=
                  if target1 = "" then
                    "worksheets/sheet" ++ toString (acc.length + 1) ++ ".xml"
                  else target1
                acc ++ [{ name := nm, path := target2 }]) []
        if entries.isEmpty then .ok (fallbackSheetEntries wb) else .ok entries

/-! ## Asset Resolver: drawing anchors -/

structure DrawingAnchor where
  name : Option String
  chartId : Option String
  imageId : Option String
  range : Option String
deriving DecidableEq, Repr

/-- `/<xdr:(?:twoCellAnchor|oneCellAnchor)[^>]*>([\s\S]*?)<\/xdr:(?:twoCellAnchor|oneCellAnchor)>/g`. -/
def anchorRegex : Rx :=
  .grp 0 (seqAll [.str "<xdr:",
    .alt (.str "twoCellAnchor") (.str "oneCellAnchor"),
    .star notGtCls, .ch '>',
    .grp 1 (.lazyStar anyCls),
    .str "</xdr:",
    .alt (.str "twoCellAnchor") (.str "oneCellAnchor"), .ch '>'])

/-- `/<a:cNvPr[^>]*name="([^"]+)"/`. -/
def cNvPrRegex : Rx :=
  .grp 0 (seqAll [.str "<a:cNvPr", .star notGtCls, .str "name=\"",
    .grp 1 (.plus notDqCls), .ch '"'])

/-- `/<c:chart[^>]*r:id="([^"]+)"/`. -/
def chartRefRegex : Rx :=
  .grp 0 (seqAll [.str "<c:chart", .star notGtCls, .str "r:id=\"",
    .grp 1 (.plus notDqCls), .ch '"'])

/-- `/<a:blip[^>]*r:embed="([^"]+)"/`. -/
def blipRegex : Rx :=
  .grp 0 (seqAll [.str "<a:blip", .star notGtCls, .str "r:embed=\"",
    .grp 1 (.plus notDqCls), .ch '"'])

/-- `/<xdr:from>[\s\S]*?<xdr:col>(\d+)<\/xdr:col>[\s\S]*?<xdr:row>(\d+)<\/xdr:row>[\s\S]*?<\/xdr:from>/`. -/
def fromRegex : Rx :=
  .grp 0 (seqAll [.str "<xdr:from>", .lazyStar anyCls,
    .str "<xdr:col>", .grp 1 (.plus digitCls), .str "</xdr:col>",
    .lazyStar anyCls,
    .str "<xdr:row>", .grp 2 (.plus digitCls), .str "</xdr:row>",
    .lazyStar anyCls, .str "</xdr:from>"])

/-- The analogous `<xdr:to>` regex. -/
def toRegex : Rx :=
  .grp 0 (seqAll [.str "<xdr:to>", .lazyStar anyCls,
    .str "<xdr:col>", .grp 1 (.plus digitCls), .str "</xdr:col>",
    .lazyStar anyCls,
    .str "<xdr:row>", .grp 2 (.plus digitCls), .str "</xdr:row>",
    .lazyStar anyCls, .str "</xdr:to>"])

/-- `extractRangeFromAnchor(block)` from the source. -/
def extractRangeFromAnchor (block : List Char) : Option String :=
  match firstMatch false fromRegex block with
  | none => none
  | some fm =>
    let toM := firstMatch false toRegex block
    let fromCol := digitsToNat ((capGet fm 1).getD [])
    let fromRow := digitsToNat ((capGet fm 2).getD [])
    let toCol :=
      match toM with
      | some t => digitsToNat ((capGet t 1).getD [])
      | none => fromCol
    let toRow :=
      match toM with
      | some t => digitsToNat ((capGet t 2).getD [])
      | none => fromRow
    let start := columnNumberToName fromCol ++ toString (fromRow + 1)
    let stop := columnNumberToName toCol ++ toString (toRow + 1)
    match toM with
    | some _ => some (start ++ ":" ++ stop)
    | none => some start

/-- `parseDrawingAnchors(xml)` from the source. -/
def parseDrawingAnchors (xml : String) : List DrawingAnchor :=
  (matchAll false anchorRegex xml.toList).map (fun caps =>
    let block := (capGet caps 0).getD []
    { name := (firstMatch false cNvPrRegex block).bind (fun c =>
        (capGet c 1).map String.mk),
      chartId := (firstMatch false chartRefRegex block).bind (fun c =>
        (capGet c 1).map String.mk),
      imageId := (firstMatch false blipRegex block).bind (fun c =>
        (capGet c 1).map String.mk),
      range := extractRangeFromAnchor block })

/-! ## Asset Resolver: charts -/

structure ExcelChartSummary where
  sheet : String
  name : Option String
  type : Option String
  cellRange : Option String
deriving DecidableEq, Repr

/-- `/<c:([A-Za-z0-9]+)Chart\b/`. -/
def chartTypeRegex : Rx :=
  .grp 0 (seqAll [.str "<c:",
    .grp 1 (.plus (.cls false [] [('A', 'Z'), ('a', 'z'), ('0', '9')])),
    .str "Chart", .wordB])

abbrev ChartTypeCache := List (String × Option String)

def cacheGet (cache : ChartTypeCache) (k : String) : Option (Option String) :=
  (cache.find? (fun e => e.1 = k)).map (fun e => e.2)

def cacheSet (cache : ChartTypeCache) (k : String) (v : Option String) : ChartTypeCache :=
  if cache.any (fun e => e.1 = k) then
    cache.map (fun e => if e.1 = k then (k, v) else e)
  else cache ++ [(k, v)]

/-- `loadChartType(zip, chartPath, cache)` from the source. -/
def loadChartType (zip : Zip) (chartPath : String) (cache : ChartTypeCache) :
    Except String (Option String × ChartTypeCache) :=
  let normalizedPath := normalizeZipPath chartPath
  match cacheGet cache normalizedPath with
  | some v => .ok (v, cache)
  | none =>
    match zipFile zip normalizedPath with
    | none => .ok (none, cacheSet cache normalizedPath none)
    | some chartFile =>
      match chartFile.content with
      | .error m => .error m
      | .ok xml =>
        let ty := (firstMatch false chartTypeRegex xml.toList).bind (fun c =>
          (capGet c 1).map String.mk)
        .ok (ty, cacheSet cache normalizedPath ty)

/-- Left fold that propagates the first failure (`await` inside a JS
`for` loop). -/
def foldExcept {σ α : Type} (f : σ → α → Except String σ) (init : σ) (xs : List α) :
    Except String σ :=
  xs.foldl (fun acc x =>
    match acc with
    | .error e => .error e
    | .ok s => f s x) (.ok init)

/-- `/<drawing[^>]*r:id="([^"]+)"/g`. -/
def drawingRegex : Rx :=
  .grp 0 (seqAll [.str "<drawing", .star notGtCls, .str "r:id=\"",
    .grp 1 (.plus notDqCls), .ch '"'])

def processChartAnchor (zip : Zip) (sheetName drawingPath : String)
    (drawingRels : List (String × String))
    (st : ChartTypeCache × List ExcelChartSummary) (anchor : DrawingAnchor) :
    Except String (ChartTypeCache × List ExcelChartSummary) :=
  match anchor.chartId with
  | none => .ok st
  | some chartId =>
    match relGet drawingRels chartId with
    | none => .ok st
    | some chartTarget =>
      let chartPath := resolveTarget drawingPath chartTarget
      match loadChartType zip chartPath st.1 with
      | .error m => .error m
      | .ok (ty, cache2) =>
        .ok (cache2, st.2 ++ [{ sheet := sheetName, name := anchor.name,
                                 type := ty, cellRange := anchor.range }])

def processDrawingForCharts (zip : Zip) (sheet : SheetEntry)
    (sheetRels : List (String × String))
    (st : ChartTypeCache × List ExcelChartSummary) (caps : Caps) :
    Except String (ChartTypeCache × List ExcelChartSummary) :=
  let drawingRelId := strOfCaps caps 1
  match relGet sheetRels drawingRelId with
  | none => .ok st
  | some drawingTarget =>
    let drawingPath := resolveTarget sheet.path drawingTarget
    match zipFile zip (normalizeZipPath drawingPath) with
    | none => .ok st
    | some drawingXmlFile =>
      match drawingXmlFile.content with
      | .error m => .error m
      | .ok drawingXml =>
        match zipReadOpt zip (normalizeZipPath (buildDrawingRelPath drawingPath)) with
        | .error m => .error m
        | .ok drawingRelXml =>
          let drawingRels := parseRelationships drawingRelXml
          let anchors := parseDrawingAnchors drawingXml
          foldExcept (processChartAnchor zip sheet.name drawingPath drawingRels) st anchors

def processSheetForCharts (zip : Zip)
    (st : ChartTypeCache × List ExcelChartSummary) (sheet : SheetEntry) :
    Except String (ChartTypeCache × List ExcelChartSummary) :=
  match zipFile zip (normalizeZipPath sheet.path) with
  | none => .ok st
  | some sheetXmlFile =>
    match sheetXmlFile.content with
    | .error m => .error m
    | .ok sheetXml =>
      let drawingMatches := matchAll false drawingRegex sheetXml.toList
      if drawingMatches.isEmpty then .ok st
      else
        match zipReadOpt zip (normalizeZipPath (buildSheetRelPath sheet.path)) with
        | .error m => .error m
        | .ok sheetRelXml =>
          let sheetRels := parseRelationships sheetRelXml
          foldExcept (processDrawingForCharts zip sheet sheetRels) st drawingMatches

/-- `loadCharts()` from the source: `null` archive short-circuits to an
empty list; otherwise every sheet part's drawing chain is followed. -/
def loadCharts (zipOpt : Option Zip) (wb : Workbook) :
    Except String (List ExcelChartSummary) :=
  match zipOpt with
  | none => .ok []
  | some zip =>
    match getSheetEntries zipOpt wb with
    | .error m => .error m
    | .ok sheets =>
      match foldExcept (processSheetForCharts zip) ([], []) sheets with
      | .error m => .error m
      | .ok st => .ok st.2

/-! ## Asset Resolver: images -/

structure ExcelImageSummary where
  sheet : String
  name : Option String
  position : Option String
  mediaType : String
deriving DecidableEq, Repr

/-- `determineMediaType(pathValue)` from the source. -/
def determineMediaType (pathValue : String) : String :=
  let extension := lowerStr (extname pathValue)
  if extension = ".png" then "image/png"
  else if extension = ".jpg" ∨ extension = ".jpeg" then "image/jpeg"
  else if extension = ".gif" then "image/gif"
  else if extension = ".bmp" then "image/bmp"
  else if extension = ".svg" then "image/svg+xml"
  else "application/octet-stream"

def processImageAnchor (sheetName drawingPath : String)
    (drawingRels : List (String × String))
    (results : List ExcelImageSummary) (anchor : DrawingAnchor) :
    List ExcelImageSummary :=
  match anchor.imageId with
  | none => results
  | some imageId =>
    match relGet drawingRels imageId with
    | none => results
    | some imageTarget =>
      let imagePath := resolveTarget drawingPath imageTarget
      results ++ [{ sheet := sheetName, name := anchor.name,
                    position := anchor.range, mediaType := determineMediaType imagePath }]

def processDrawingForImages (zip : Zip) (sheet : SheetEntry)
    (sheetRels : List (String × String))
    (results : List ExcelImageSummary) (caps : Caps) :
    Except String (List ExcelImageSummary) :=
  let drawingRelId := strOfCaps caps 1
  match relGet sheetRels drawingRelId with
  | none => .ok results
  | some drawingTarget =>
    let drawingPath := resolveTarget sheet.path drawingTarget
    match zipFile zip (normalizeZipPath drawingPath) with
    | none => .ok results
    | some drawingXmlFile =>
      match drawingXmlFile.content with
      | .error m => .error m
      | .ok drawingXml =>
        match zipReadOpt zip (normalizeZipPath (buildDrawingRelPath drawingPath)) with
        | .error m => .error m
        | .ok drawingRelXml =>
          let drawingRels := parseRelationships drawingRelXml
          let anchors := parseDrawingAnchors drawingXml
          .ok (anchors.foldl (processImageAnchor sheet.name drawingPath drawingRels)
            results)

def processSheetForImages (zip : Zip)
    (results : List ExcelImageSummary) (sheet : SheetEntry) :
    Except String (List ExcelImageSummary) :=
  match zipFile zip (normalizeZipPath sheet.path) with
  | none => .ok results
  | some sheetXmlFile =>
    match sheetXmlFile.content with
    | .error m => .error m
    | .ok sheetXml =>
      let drawingMatches := matchAll false drawingRegex sheetXml.toList
      if drawingMatches.isEmpty then .ok results
      else
        match zipReadOpt zip (normalizeZipPath (buildSheetRelPath sheet.path)) with
        | .error m => .error m
        | .ok sheetRelXml =>
          let sheetRels := parseRelationships sheetRelXml
          foldExcept (processDrawingForImages zip sheet sheetRels) results drawingMatches

/-- `loadImages()` from the source. -/
def loadImages (zipOpt : Option Zip) (wb : Workbook) :
    Except String (List ExcelImageSummary) :=
  match zipOpt with
  | none => .ok []
  | some zip =>
    match getSheetEntries zipOpt wb with
    | .error m => .error m
    | .ok sheets => foldExcept (processSheetForImages zip) [] sheets

/-! ## Asset Resolver: macros -/

structure ExcelMacroSummary where
  module : String
  name : String
deriving DecidableEq, Repr

/-- `/Module=([A-Za-z0-9_]+)/gi`. -/
def moduleRegex : Rx := .grp 0 (seqAll [.str "Module=", .grp 1 (.plus wordCls)])

/-- `/Sheet\d+/gi`. -/
def sheetNRegex : Rx := .grp 0 (seqAll [.str "Sheet", .plus digitCls])

/-- The byte-pattern scan of `loadMacros`: module names after `Module=`,
a literal `ThisWorkbook`, and `SheetN` worksheet names, deduplicated in
discovery order. -/
def scanVbaModules (text : String) : List String :=
  let t := text.toList
  let s1 := (matchAll true moduleRegex t).foldl (fun acc caps =>
    setAdd acc (strOfCaps caps 1)) []
  let s2 := if strContainsSub text "ThisWorkbook" then setAdd s1 "ThisWorkbook" else s1
  (matchAll true sheetNRegex t).foldl (fun acc caps =>
    setAdd acc (strOfCaps caps 0)) s2

/-- `loadMacros()` from the source: no archive or no
`xl/vbaProject.bin` part gives an empty list; a failing read of the part
gives the single "Unknown" placeholder; an empty scan of a readable part
gives the single "VBAProject" placeholder. -/
def loadMacros (zipOpt : Option Zip) : List ExcelMacroSummary :=
  match zipOpt with
  | none => []
  | some zip =>
    match zipFile zip "xl/vbaProject.bin" with
    | none => []
    | some vbaFile =>
      match vbaFile.content with
      | .error _ => [{ module := "VBAProject", name := "Unknown" }]
      | .ok text =>
        let modules := scanVbaModules text
        let modules2 := if modules.isEmpty then ["VBAProject"] else modules
        modules2.map (fun n => { module := "VBAProject", name := n })

/-! ## Concrete fixtures used by the theorems below -/

/-- A workbook whose only formula is `Sheet1!A1` with formula `=A1`
(the sheet library stores the formula text without the `=`). -/
def wbSelfRef : Workbook :=
  ⟨["Sheet1"], [("Sheet1", [("A1", ⟨some (.num 0), none, some "n", some "A1"⟩)])]⟩

/-- A workbook with one plain value cell `Sheet1!A1` and no formulas. -/
def wbOneValue : Workbook :=
  ⟨["Sheet1"], [("Sheet1", [("A1", ⟨some (.num 5), none, some "n", none⟩)])]⟩

/-- A workbook whose only formula is `Sheet1!A1` with formula `=B1`. -/
def wbOneFormula : Workbook :=
  ⟨["Sheet1"], [("Sheet1", [("A1", ⟨some (.num 0), none, some "n", some "B1"⟩)])]⟩

/-- An engine that evaluates successfully without changing anything. -/
def engIdentity : Engine := fun w => .ok w

/-- An engine that fails with a circularity message. -/
def engCircMsg : Engine := fun w => .error (w, "Circular dependency detected")

/-- An engine that fails with a non-circular message. -/
def engBoomMsg : Engine := fun w => .error (w, "boom")

/-! ## Theorems -/

/-- C4: for a workbook whose only formula is cell A1 on sheet Sheet1
with formula `=A1`, `findCircularReferences` returns exactly one cycle,
whose path is the two-element list `["Sheet1!A1", "Sheet1!A1"]`. -/
theorem findCircularReferences_self_reference :
    findCircularReferences wbSelfRef = [⟨["Sheet1!A1", "Sheet1!A1"]⟩] := by
  decide

/-- C6 counterexample: the reference resolver is not case-insensitive.
In a formula, the upper-case reference `A1` resolves to node
`Sheet1!A1`, but the lower-case spelling `a1` of the same address is not
recognized as a reference at all, so `a1` and `A1` do not denote the
same dependency-graph node as the claim states. -/
theorem extractCellReferences_lowercase_counterexample :
    extractCellReferences "a1" "Sheet1" = [] ∧
    extractCellReferences "A1" "Sheet1" = ["Sheet1!A1"] := by
  decide

/-- C6 amended: absolute markers are stripped and recognized addresses
are upper-cased on output, so `$A$1` and `A1` (written in upper case)
denote the same node, and `normalizeAddress` itself is case-insensitive;
but the resolver's reference scan only matches upper-case column
letters, so the lower-case spellings `a1` and `$a1` occurring in a
formula are not resolved to any node. -/
theorem address_normalization_amended :
    extractCellReferences "$A$1" "Sheet1" = ["Sheet1!A1"] ∧
    extractCellReferences "A1" "Sheet1" = ["Sheet1!A1"] ∧
    extractCellReferences "a1" "Sheet1" = [] ∧
    extractCellReferences "$a1" "Sheet1" = [] ∧
    normalizeAddress "$a$1" = "A1" := by
  decide

/-- C5 counterexample: `registerCustomFormulas` performs no per-entry
validation.  Registering the map with the single entry `"" ↦ function`
succeeds and records the empty name in the registry, although the claim
requires every registration with an empty name to fail and not be
registered. -/
theorem registerCustomFormulas_no_validation_counterexample :
    registerCustomFormulas [] (some [("", JsValue.func)]) = .ok [""] := by
  decide

/-- C5 amended: `registerCustomFormula` validates its input — an empty
name or a non-callable implementation fails with the descriptive error
and registers nothing, and a valid pair is recorded uppercased — but
`registerCustomFormulas` only rejects a nullish map and registers every
entry's key uppercased without any per-entry validation. -/
theorem registerFormula_validation_amended :
    (∀ (registry : List String) (name : String) (impl : JsValue),
        name = "" ∨ isFunction impl = false →
        registerCustomFormula registry name impl =
          .error "registerFormula requires a name and function implementation.") ∧
    (∀ (registry : List String) (name : String) (impl : JsValue),
        name ≠ "" → isFunction impl = true →
        registerCustomFormula registry name impl =
          .ok (setAdd registry (upperStr name))) ∧
    (∀ (registry : List String) (fs : List (String × JsValue)),
        registerCustomFormulas registry (some fs) =
          .ok (fs.foldl (fun r kv => setAdd r (upperStr kv.1)) registry)) ∧
    (∀ registry : List String,
        registerCustomFormulas registry none = .ok registry) := by
  refine ⟨?_, ?_, ?_, ?_⟩
  · intro registry name impl h
    unfold registerCustomFormula
    rw [if_pos h]
  · intro registry name impl h1 h2
    unfold registerCustomFormula
    rw [if_neg (by simp [h1, h2])]
  · intro registry fs
    rfl
  · intro registry
    rfl

/-- C5 witness: the amended theorem applied at concrete inputs — the
empty name is rejected by `registerCustomFormula`, a valid pair is
registered uppercased, and `registerCustomFormulas` registers an
invalid entry without complaint. -/
theorem registerFormula_validation_amended_witness :
    registerCustomFormula [] "" JsValue.func =
      .error "registerFormula requires a name and function implementation." ∧
    registerCustomFormula [] "double" JsValue.func = .ok ["DOUBLE"] ∧
    registerCustomFormulas [] (some [("bad", JsValue.num 3)]) = .ok ["BAD"] :=
  ⟨registerFormula_validation_amended.1 [] "" JsValue.func (Or.inl rfl),
   (registerFormula_validation_amended.2.1 [] "double" JsValue.func
      (by decide) (by decide)).trans (by decide),
   (registerFormula_validation_amended.2.2.1 [] [("bad", JsValue.num 3)]).trans
      (by decide)⟩

/-- C8: when the workbook's backing archive cannot be parsed as a zip
container (the archive handle is null), `getCharts`, `getImages` and
`listMacros` each resolve to an empty list and never throw. -/
theorem asset_queries_degrade_on_unparseable_archive :
    ∀ wb : Workbook,
      loadCharts none wb = .ok [] ∧
      loadImages none wb = .ok [] ∧
      loadMacros none = [] :=
  fun _ => ⟨rfl, rfl, rfl⟩

/-- C9: macro discovery has three distinguished outcomes — an archive
without the `xl/vbaProject.bin` part yields an empty list; a readable
part in which the byte-pattern scan finds no module-name, ThisWorkbook
or SheetN patterns yields exactly the `VBAProject` placeholder module;
and a failure while scanning the part yields exactly one entry named
`Unknown`. -/
theorem loadMacros_three_outcomes :
    (∀ z : Zip, zipFile z "xl/vbaProject.bin" = none →
        loadMacros (some z) = []) ∧
    (∀ (z : Zip) (e : ZipEntry) (text : String),
        zipFile z "xl/vbaProject.bin" = some e → e.content = .ok text →
        scanVbaModules text = [] →
        loadMacros (some z) = [{ module := "VBAProject", name := "VBAProject" }]) ∧
    (∀ (z : Zip) (e : ZipEntry) (m : String),
        zipFile z "xl/vbaProject.bin" = some e → e.content = .error m →
        loadMacros (some z) = [{ module := "VBAProject", name := "Unknown" }]) := by
  refine ⟨?_, ?_, ?_⟩
  · intro z h
    simp only [loadMacros, h]
  · intro z e text h1 h2 h3
    simp only [loadMacros, h1, h2, h3, List.isEmpty_nil, if_true, List.map_cons,
      List.map_nil]
  · intro z e m h1 h2
    simp only [loadMacros, h1, h2]

/-- C9 witness: the three outcomes at concrete archives — no macro
part, a readable part with no recognizable patterns, and an unreadable
part. -/
theorem loadMacros_three_outcomes_witness :
    loadMacros (some ([] : Zip)) = [] ∧
    loadMacros (some [⟨"xl/vbaProject.bin", .ok "hello world"⟩]) =
      [{ module := "VBAProject", name := "VBAProject" }] ∧
    loadMacros (some [⟨"xl/vbaProject.bin", .error "corrupt stream"⟩]) =
      [{ module := "VBAProject", name := "Unknown" }] :=
  ⟨loadMacros_three_outcomes.1 [] rfl,
   loadMacros_three_outcomes.2.1 [⟨"xl/vbaProject.bin", .ok "hello world"⟩]
     ⟨"xl/vbaProject.bin", .ok "hello world"⟩ "hello world" rfl rfl (by decide),
   loadMacros_three_outcomes.2.2 [⟨"xl/vbaProject.bin", .error "corrupt stream"⟩]
     ⟨"xl/vbaProject.bin", .error "corrupt stream"⟩ "corrupt stream" rfl rfl⟩

/-- Helper: the report-finishing tail of `evaluateWorkbook` always ends
with `evaluated` equal to the graph's key set and `circular` equal to
the detector's output, whenever the incoming `circular` field is either
empty or already the detector's output for the same graph. -/
theorem finishReport_eq (w : Workbook) (g : Graph)
    (circ : List ExcelCircularReference)
    (h : circ = detectCircularReferences g ∨ circ = []) :
    finishReport w g ⟨[], circ, []⟩ =
      .ok (w, ⟨graphKeys g, detectCircularReferences g, []⟩) := by
  rcases h with h | h
  · subst h
    by_cases he : (detectCircularReferences g).isEmpty
    · simp [finishReport, he, List.isEmpty_iff.mp he]
    · simp [finishReport, he]
  · subst h
    simp [finishReport]

/-- C2: the error policy of `evaluateWorkbook`.  When the engine throws
with a message containing "circular", the dependency graph is built and
`report.circular` is populated from the cycle detector; with
`ignoreCircular` unset the call then throws (carrying that report), and
with it set the call returns the report.  When the engine throws with a
non-circular message, the failure is recorded in `report.errors` and the
call throws regardless of the option. -/
theorem evaluateWorkbook_error_policy (engine : Engine) (wb : Workbook)
    (ig : Bool) (wbE : Workbook) (msg : String)
    (hE : engine wb = .error (wbE, msg)) :
    (strContainsSub (lowerStr msg) "circular" = true →
      (ig = false → evaluateWorkbook engine wb ig =
        .error ("Formula evaluation failed: " ++ msg,
          ⟨[], detectCircularReferences (buildFormulaGraph wbE), []⟩)) ∧
      (ig = true → evaluateWorkbook engine wb ig =
        .ok (wbE, ⟨graphKeys (buildFormulaGraph wbE),
          detectCircularReferences (buildFormulaGraph wbE), []⟩))) ∧
    (strContainsSub (lowerStr msg) "circular" = false →
      evaluateWorkbook engine wb ig =
        .error ("Formula evaluation failed: " ++ msg, ⟨[], [], [⟨"", msg⟩]⟩)) := by
  constructor
  · intro hc
    constructor
    · intro hig
      subst hig
      simp only [evaluateWorkbook, hE, hc, if_true, Bool.not_false]
    · intro hig
      subst hig
      simp only [evaluateWorkbook, hE, hc, if_true, Bool.not_true, Bool.false_eq_true,
        if_false]
      exact finishReport_eq wbE (buildFormulaGraph wbE) _ (Or.inl rfl)
  · intro hc
    simp only [evaluateWorkbook, hE, hc, Bool.false_eq_true, if_false]

/-- C2 witness: the error policy applied at a concrete engine failing
with a circularity message over the empty workbook (both option values)
and at a concrete engine failing with a non-circular message. -/
theorem evaluateWorkbook_error_policy_witness :
    evaluateWorkbook engCircMsg ⟨[], []⟩ false =
      .error ("Formula evaluation failed: Circular dependency detected",
        ⟨[], detectCircularReferences (buildFormulaGraph ⟨[], []⟩), []⟩) ∧
    evaluateWorkbook engCircMsg ⟨[], []⟩ true =
      .ok (⟨[], []⟩, ⟨graphKeys (buildFormulaGraph ⟨[], []⟩),
        detectCircularReferences (buildFormulaGraph ⟨[], []⟩), []⟩) ∧
    evaluateWorkbook engBoomMsg ⟨[], []⟩ true =
      .error ("Formula evaluation failed: boom", ⟨[], [], [⟨"", "boom"⟩]⟩) :=
  ⟨((evaluateWorkbook_error_policy engCircMsg ⟨[], []⟩ false ⟨[], []⟩
      "Circular dependency detected" rfl).1 (by decide)).1 rfl,
   ((evaluateWorkbook_error_policy engCircMsg ⟨[], []⟩ true ⟨[], []⟩
      "Circular dependency detected" rfl).1 (by decide)).2 rfl,
   (evaluateWorkbook_error_policy engBoomMsg ⟨[], []⟩ true ⟨[], []⟩
      "boom" rfl).2 (by decide)⟩

/-- C3: whenever `evaluateWorkbook` returns a report (engine success, or
circular failure with `ignoreCircular` set), `report.evaluated` is
exactly the key set of the dependency graph freshly built from the
returned workbook state, and `report.circular` equals the cycle
detector's output over that same graph — also when the engine itself did
not report circularity. -/
theorem evaluateWorkbook_report_consistent (engine : Engine) (wb : Workbook)
    (ig : Bool) (wb2 : Workbook) (rep : ExcelEvaluationReport)
    (h : evaluateWorkbook engine wb ig = .ok (wb2, rep)) :
    rep.evaluated = graphKeys (buildFormulaGraph wb2) ∧
    rep.circular = detectCircularReferences (buildFormulaGraph wb2) := by
  unfold evaluateWorkbook at h
  cases hE : engine wb with
  | ok wbOk =>
    rw [hE] at h
    dsimp only at h
    rw [finishReport_eq wbOk (buildFormulaGraph wbOk) [] (Or.inr rfl)] at h
    simp only [Except.ok.injEq, Prod.mk.injEq] at h
    obtain ⟨h1, h2⟩ := h
    subst h1
    subst h2
    exact ⟨rfl, rfl⟩
  | error pr =>
    obtain ⟨wbE, msg⟩ := pr
    rw [hE] at h
    dsimp only at h
    by_cases hc : strContainsSub (lowerStr msg) "circular"
    · rw [if_pos hc] at h
      cases ig with
      | false => simp at h
      | true =>
        simp only [Bool.not_true, Bool.false_eq_true, if_false] at h
        rw [finishReport_eq wbE (buildFormulaGraph wbE) _ (Or.inl rfl)] at h
        simp only [Except.ok.injEq, Prod.mk.injEq] at h
        obtain ⟨h1, h2⟩ := h
        subst h1
        subst h2
        exact ⟨rfl, rfl⟩
    · rw [if_neg hc] at h
      simp at h

/-- C3 witness: the report consistency applied at a concrete successful
evaluation of a one-formula workbook. -/
theorem evaluateWorkbook_report_consistent_witness :
    evaluateWorkbook engIdentity wbOneFormula true =
      .ok (wbOneFormula, ⟨["Sheet1!A1"], [], []⟩) ∧
    (⟨["Sheet1!A1"], [], []⟩ : ExcelEvaluationReport).evaluated =
      graphKeys (buildFormulaGraph wbOneFormula) ∧
    (⟨["Sheet1!A1"], [], []⟩ : ExcelEvaluationReport).circular =
      detectCircularReferences (buildFormulaGraph wbOneFormula) :=
  ⟨by decide,
   (evaluateWorkbook_report_consistent engIdentity wbOneFormula true wbOneFormula
      ⟨["Sheet1!A1"], [], []⟩ (by decide)).1,
   (evaluateWorkbook_report_consistent engIdentity wbOneFormula true wbOneFormula
      ⟨["Sheet1!A1"], [], []⟩ (by decide)).2⟩

/-- Helper: `getCellValue` succeeds (with a cell record or `none`)
whenever the resolved sheet exists; its only exception is the missing
sheet. -/
theorem getCellValue_ok_of_sheet (wb : Workbook) (sheet : SheetRef) (row col : Int)
    (h : (wsLookup wb (resolveSheetName wb sheet)).isSome = true) :
    ∃ bc, getCellValue wb sheet row col = .ok bc := by
  obtain ⟨ws, hw⟩ := Option.isSome_iff_exists.mp h
  unfold getCellValue
  dsimp only
  rw [hw]
  dsimp only
  cases cellLookup ws (encode_cell (row - 1) (col - 1)) with
  | none => exact ⟨none, rfl⟩
  | some cell => exact ⟨some _, rfl⟩

/-- C1 counterexample: `evaluateCell` does throw when the named sheet
does not exist in the workbook — the pre-evaluation `getCellValue` call
sits outside the try/catch, so its "Sheet not found" exception
propagates instead of being converted into a result object. -/
theorem evaluateCellFormula_missing_sheet_throws :
    evaluateCellFormula engIdentity wbOneValue (.name "Missing") 1 1 =
      .error "Sheet \"Missing\" not found." := by
  decide

/-- C1 amended: provided the resolved sheet exists in the workbook,
`evaluateCell` never throws; in particular, when the internal
evaluation throws, the result object carries the last-known
(pre-evaluation) cell contents and the thrown message in its `error`
field.  (When the named sheet does not exist, the pre-evaluation read
itself throws and that exception propagates.) -/
theorem evaluateCellFormula_no_throw_when_sheet_exists (engine : Engine)
    (wb : Workbook) (sheet : SheetRef) (row col : Int)
    (h : (wsLookup wb (resolveSheetName wb sheet)).isSome = true) :
    (evaluateCellFormula engine wb sheet row col).isOk = true ∧
    (∀ (bc : Option CellRecord) (m : String) (rep : ExcelEvaluationReport),
      getCellValue wb sheet row col = .ok bc →
      evaluateWorkbook engine wb true = .error (m, rep) →
      evaluateCellFormula engine wb sheet row col =
        .ok { address := resolveSheetName wb sheet ++ "!" ++
                encode_cell (row - 1) (col - 1),
              sheet := resolveSheetName wb sheet,
              formula := bc.bind (fun c => c.formula),
              value := bc.bind (fun c => c.value),
              evaluatedValue := bc.bind (fun c => c.evaluatedValue),
              type := bc.bind (fun c => c.type),
              error := some m }) := by
  obtain ⟨bc0, hbc0⟩ := getCellValue_ok_of_sheet wb sheet row col h
  constructor
  · unfold evaluateCellFormula
    rw [hbc0]
    dsimp only
    cases evaluateCellTry engine wb sheet row col
        (resolveSheetName wb sheet ++ "!" ++ encode_cell (row - 1) (col - 1))
        (resolveSheetName wb sheet) bc0 with
    | ok r => rfl
    | error m => rfl
  · intro bc m rep hbc hev
    unfold evaluateCellFormula
    rw [hbc]
    dsimp only
    unfold evaluateCellTry
    rw [hev]

/-- C1 witness: the amended theorem applied at a workbook whose sheet
exists and an engine that throws a non-circular error: the call
completes normally and the result carries the pre-evaluation value with
the thrown message. -/
theorem evaluateCellFormula_no_throw_witness :
    (evaluateCellFormula engBoomMsg wbOneValue (.name "Sheet1") 1 1).isOk = true ∧
    evaluateCellFormula engBoomMsg wbOneValue (.name "Sheet1") 1 1 =
      .ok { address := "Sheet1!A1", sheet := "Sheet1", formula := none,
            value := some (.num 5), evaluatedValue := some (.num 5),
            type := some "n", error := some "Formula evaluation failed: boom" } :=
  ⟨(evaluateCellFormula_no_throw_when_sheet_exists engBoomMsg wbOneValue
      (.name "Sheet1") 1 1 (by decide)).1,
   ((evaluateCellFormula_no_throw_when_sheet_exists engBoomMsg wbOneValue
      (.name "Sheet1") 1 1 (by decide)).2
      (some { address := "A1", value := some (.num 5), raw := none,
              type := some "n", formula := none, evaluatedValue := some (.num 5) })
      "Formula evaluation failed: boom" ⟨[], [], [⟨"", "boom"⟩]⟩
      (by decide) (by decide)).trans (by decide)⟩

/-- C7 counterexample: `getCell` does not fail fast on a non-positive
row.  With row 0 on an existing sheet it quietly returns `undefined`
(the degenerate address "A0" is simply not present) instead of raising
an error as the claim requires of both accessors. -/
theorem getCellValue_nonpositive_no_error :
    getCellValue wbOneValue (.name "Sheet1") 0 1 = .ok none := by
  decide

/-- C7 amended: only `setCell` validates coordinates — for every
workbook whose resolved sheet exists, any row or column below 1 makes
`setCell` fail fast with the descriptive message; `getCell` performs no
such validation and, for example, returns `undefined` without error at
row 0 on an existing sheet. -/
theorem cell_accessors_validation_amended :
    (∀ (wb : Workbook) (sheet : SheetRef) (row col : Int) (value : Option CVal)
        (options : ExcelSetCellOptions),
      (wsLookup wb (resolveSheetName wb sheet)).isSome = true →
      row < 1 ∨ col < 1 →
      setCellValue wb sheet row col value options =
        .error "Row and column must be 1-based positive integers.") ∧
    getCellValue wbOneValue (.name "Sheet1") 0 1 = .ok none := by
  constructor
  · intro wb sheet row col value options hs hrc
    obtain ⟨ws, hw⟩ := Option.isSome_iff_exists.mp hs
    unfold setCellValue
    dsimp only
    rw [hw]
    dsimp only
    rw [if_pos hrc]
  · decide

/-- C7 witness: the amended theorem applied at a concrete workbook —
`setCell` at row 0 fails with the validation message while `getCell` at
the same coordinates returns without error. -/
theorem cell_accessors_validation_amended_witness :
    setCellValue wbOneValue (.name "Sheet1") 0 1 (some (.num 1)) ⟨none⟩ =
      .error "Row and column must be 1-based positive integers." ∧
    getCellValue wbOneValue (.name "Sheet1") 0 1 = .ok none :=
  ⟨cell_accessors_validation_amended.1 wbOneValue (.name "Sheet1") 0 1
      (some (.num 1)) ⟨none⟩ (by decide) (Or.inl (by decide)),
   cell_accessors_validation_amended.2⟩

/-! ### Split/join lemmas for the path-collapsing proof -/

theorem splitCh_ne_nil (sep : Char) (cs : List Char) : splitCh sep cs ≠ [] := by
  induction cs with
  | nil => simp [splitCh]
  | cons c cs ih =>
    simp only [splitCh]
    cases hs : splitCh sep cs with
    | nil => exact absurd hs ih
    | cons h t =>
      by_cases hc : c = sep
      · simp [hc]
      · simp [hc]

theorem splitCh_sep_not_mem (sep : Char) (cs : List Char) :
    ∀ p ∈ splitCh sep cs, sep ∉ p := by
  induction cs with
  | nil =>
    intro p hp
    simp [splitCh] at hp
    simp [hp]
  | cons c cs ih =>
    intro p hp
    simp only [splitCh] at hp
    cases hs : splitCh sep cs with
    | nil => exact absurd hs (splitCh_ne_nil sep cs)
    | cons h t =>
      rw [hs] at hp
      dsimp only at hp
      by_cases hc : c = sep
      · rw [if_pos hc] at hp
        rcases List.mem_cons.mp hp with hp | hp
        · simp [hp]
        · exact ih p (hs ▸ hp)
      · rw [if_neg hc] at hp
        rcases List.mem_cons.mp hp with hp | hp
        · subst hp
          intro hmem
          rcases List.mem_cons.mp hmem with hmem | hmem
          · exact hc hmem.symm
          · exact ih h (hs ▸ List.mem_cons_self h t) hmem
        · exact ih p (hs ▸ List.mem_cons_of_mem h hp)

theorem splitCh_of_not_mem (sep : Char) (a : List Char) (h : sep ∉ a) :
    splitCh sep a = [a] := by
  induction a with
  | nil => rfl
  | cons c a ih =>
    have hc : c ≠ sep := fun he => h (he ▸ List.mem_cons_self c a)
    have ha : sep ∉ a := fun hm => h (List.mem_cons_of_mem c hm)
    simp only [splitCh, ih ha]
    simp [fun he => hc he]

theorem splitCh_append (sep : Char) (a r : List Char) (h : sep ∉ a) :
    splitCh sep (a ++ sep :: r) = a :: splitCh sep r := by
  induction a with
  | nil =>
    simp only [List.nil_append, splitCh]
    cases hs : splitCh sep r with
    | nil => exact absurd hs (splitCh_ne_nil sep r)
    | cons h t => simp
  | cons c a ih =>
    have hc : c ≠ sep := fun he => h (he ▸ List.mem_cons_self c a)
    have ha : sep ∉ a := fun hm => h (List.mem_cons_of_mem c hm)
    show splitCh sep (c :: (a ++ sep :: r)) = (c :: a) :: splitCh sep r
    simp only [splitCh]
    rw [ih ha]
    simp [fun he => hc he]

theorem splitCh_joinCh (sep : Char) (l : List (List Char))
    (hl : ∀ p ∈ l, sep ∉ p) (hne : l ≠ []) :
    splitCh sep (joinCh sep l) = l := by
  induction l with
  | nil => exact absurd rfl hne
  | cons a l ih =>
    cases l with
    | nil =>
      simp only [joinCh]
      exact splitCh_of_not_mem sep a (hl a (List.mem_cons_self a []))
    | cons b l2 =>
      have : joinCh sep (a :: b :: l2) = a ++ sep :: joinCh sep (b :: l2) := rfl
      rw [this, splitCh_append sep a _ (hl a (List.mem_cons_self a _)),
        ih (fun p hp => hl p (List.mem_cons_of_mem a hp)) (by simp)]

/-- A collapsed path segment: nonempty, not a dot segment, slash-free. -/
def GoodSeg (s : List Char) : Prop :=
  s ≠ [] ∧ s ≠ ['.'] ∧ s ≠ ['.', '.'] ∧ '/' ∉ s

theorem collapseStep_fold_good (segs : List (List Char))
    (acc : List (List Char)) (hsegs : ∀ s ∈ segs, '/' ∉ s)
    (hacc : ∀ s ∈ acc, GoodSeg s) :
    ∀ s ∈ segs.foldl collapseStep acc, GoodSeg s := by
  induction segs generalizing acc with
  | nil => exact hacc
  | cons a rest ih =>
    intro s hs
    refine ih (collapseStep acc a)
      (fun x hx => hsegs x (List.mem_cons_of_mem _ hx)) ?_ s hs
    intro x hx
    unfold collapseStep at hx
    by_cases h1 : a = [] ∨ a = ['.']
    · rw [if_pos h1] at hx
      exact hacc x hx
    · rw [if_neg h1] at hx
      by_cases h2 : a = ['.', '.']
      · rw [if_pos h2] at hx
        exact hacc x (List.dropLast_subset _ hx)
      · rw [if_neg h2] at hx
        rcases List.mem_append.mp hx with hx | hx
        · exact hacc x hx
        · have hxa : x = a := by simpa using hx
          subst hxa
          push_neg at h1
          exact ⟨h1.1, h1.2, h2, hsegs x (List.mem_cons_self _ _)⟩

theorem joinCh_head (s : List Char) (rest : List (List Char)) (h : s ≠ []) :
    (joinCh '/' (s :: rest)).head? = s.head? := by
  cases rest with
  | nil => rfl
  | cons b l =>
    cases s with
    | nil => exact absurd rfl h
    | cons c cs => rfl

/-- Collapsing any segment list with the stack loop and re-joining never
leaves a `.` or `..` segment, and the result cannot start with a
slash. -/
theorem xlPrefix_forced (n3 : List Char) :
    leadsWith ['x', 'l', '/']
      (if leadsWith ['x', 'l', '/'] n3 = true then n3 else 'x' :: 'l' :: '/' :: n3) =
      true := by
  by_cases h : leadsWith ['x', 'l', '/'] n3 = true
  · rw [if_pos h]
    exact h
  · rw [if_neg h]
    simp [leadsWith]

theorem collapse_good (combined : List Char) :
    ['.'] ∉ splitCh '/' (joinCh '/' ((splitCh '/' combined).foldl collapseStep [])) ∧
    ['.', '.'] ∉ splitCh '/' (joinCh '/' ((splitCh '/' combined).foldl collapseStep [])) ∧
    (joinCh '/' ((splitCh '/' combined).foldl collapseStep [])).head? ≠ some '/' := by
  have hgood : ∀ s ∈ (splitCh '/' combined).foldl collapseStep [], GoodSeg s :=
    collapseStep_fold_good (splitCh '/' combined) []
      (fun s hs => splitCh_sep_not_mem '/' combined s hs)
      (fun x hx => absurd hx (List.not_mem_nil x))
  cases hst : (splitCh '/' combined).foldl collapseStep [] with
  | nil =>
    refine ⟨?_, ?_, ?_⟩ <;> decide
  | cons s rest =>
    have hgood2 : ∀ p ∈ s :: rest, GoodSeg p := fun p hp => hgood p (hst ▸ hp)
    have hsl : ∀ p ∈ s :: rest, '/' ∉ p := fun p hp => (hgood2 p hp).2.2.2
    rw [splitCh_joinCh '/' (s :: rest) hsl (by simp)]
    refine ⟨?_, ?_, ?_⟩
    · intro hmem
      exact (hgood2 _ hmem).2.1 rfl
    · intro hmem
      exact (hgood2 _ hmem).2.2.1 rfl
    · rw [joinCh_head s rest (hgood2 s (List.mem_cons_self s rest)).1]
      have hns : '/' ∉ s := (hgood2 s (List.mem_cons_self s rest)).2.2.2
      cases s with
      | nil => simp
      | cons c cs =>
        intro he
        simp only [List.head?_cons, Option.some.injEq] at he
        subst he
        exact hns (List.mem_cons_self _ _)

/-- C10 counterexample: an absolute relationship target only loses its
leading slash and is not collapsed — `resolveTarget` applied to the
absolute target `/a/../b` returns `a/../b`, which still contains a `..`
segment, contradicting the claim that every output is free of `..` and
`.` segments. -/
theorem resolveTarget_absolute_dotdot_counterexample :
    resolveTarget "xl/worksheets/sheet1.xml" "/a/../b" = "a/../b" ∧
    ['.', '.'] ∈ splitCh '/'
      (resolveTargetCh "xl/worksheets/sheet1.xml".toList "/a/../b".toList) := by
  constructor
  · decide
  · decide

/-- C10 amended: relative (non-empty, non-absolute) relationship targets
are fully collapsed — the output has no `.` or `..` segments and no
leading slash; absolute targets merely have their leading slash
stripped, with no collapsing; and `normalizeZipPath`'s output always
begins with `xl/`. -/
theorem resolveTarget_normalizeZipPath_amended :
    (∀ base target : List Char, target ≠ [] → target.head? ≠ some '/' →
      ['.'] ∉ splitCh '/' (resolveTargetCh base target) ∧
      ['.', '.'] ∉ splitCh '/' (resolveTargetCh base target) ∧
      (resolveTargetCh base target).head? ≠ some '/') ∧
    (∀ base target : List Char, target.head? = some '/' →
      resolveTargetCh base target = target.tail) ∧
    (∀ pathValue : List Char,
      leadsWith ['x', 'l', '/'] (normalizeZipPathCh pathValue) = true) := by
  refine ⟨?_, ?_, ?_⟩
  · intro base target h1 h2
    unfold resolveTargetCh
    rw [if_neg h1, if_neg h2]
    exact collapse_good _
  · intro base target h
    have hne : target ≠ [] := by
      intro he
      rw [he] at h
      simp at h
    unfold resolveTargetCh
    rw [if_neg hne, if_pos h]
  · intro pathValue
    unfold normalizeZipPathCh
    dsimp only
    exact xlPrefix_forced _

/-- C10 witness: the amended theorem applied at a concrete relative
target with `..` segments, a concrete absolute target, and a concrete
path without the `xl/` prefix. -/
theorem resolveTarget_normalizeZipPath_amended_witness :
    (['.'] ∉ splitCh '/'
        (resolveTargetCh "worksheets/sheet1.xml".toList "../drawings/d1.xml".toList) ∧
      ['.', '.'] ∉ splitCh '/'
        (resolveTargetCh "worksheets/sheet1.xml".toList "../drawings/d1.xml".toList) ∧
      (resolveTargetCh "worksheets/sheet1.xml".toList
        "../drawings/d1.xml".toList).head? ≠ some '/') ∧
    resolveTargetCh "base.xml".toList "/abs/part.xml".toList =
      ("/abs/part.xml".toList).tail ∧
    leadsWith ['x', 'l', '/'] (normalizeZipPathCh "media/image1.png".toList) = true :=
  ⟨resolveTarget_normalizeZipPath_amended.1 "worksheets/sheet1.xml".toList
      "../drawings/d1.xml".toList (by decide) (by decide),
   resolveTarget_normalizeZipPath_amended.2.1 "base.xml".toList
      "/abs/part.xml".toList (by decide),
   resolveTarget_normalizeZipPath_amended.2.2 "media/image1.png".toList⟩

end Anyfile
